import Mathlib

/-!
Verification of the task-scheduling core of the `ultra-scraper` repository.

The definitions below are a shallow embedding of the TypeScript sources:
`src/queue/TaskQueue.ts`, `src/queue/PriorityQueue.ts`,
`src/queue/DeadLetterQueue.ts`, `src/strategies/BackoffStrategy.ts`,
the `CircuitBreaker` and `RateLimiter` classes, and the shared
`queue.types` declarations (`TaskPriority`, `TaskStatus`, `Task`,
`QueueConfig`).  Mutable class fields become structure fields, method
bodies become pure functions from state to state, and the single-threaded
JavaScript event loop is modelled by treating every synchronous block of a
method as one atomic step.
-/

namespace UltraScraper

/-- The `TaskPriority` from the queue type declarations:
`CRITICAL = 0, HIGH = 1, NORMAL = 2, LOW = 3` (smaller number = higher
priority). -/
inductive TaskPriority
  | CRITICAL
  | HIGH
  | NORMAL
  | LOW
deriving DecidableEq, Repr

/-- The numeric value of each priority in the TypeScript enum. -/
def TaskPriority.toNat : TaskPriority → Nat
  | .CRITICAL => 0
  | .HIGH => 1
  | .NORMAL => 2
  | .LOW => 3

/-- The `TaskStatus` from the queue type declarations. -/
inductive TaskStatus
  | PENDING
  | PROCESSING
  | COMPLETED
  | FAILED
  | RETRYING
  | CANCELLED
deriving DecidableEq, Repr

/-- The observable data of a `Task` (the `execute` closure is not data; a
task body's outcome is supplied as a parameter wherever a task runs).
Optional TypeScript fields become `Option`. -/
structure Task where
  id : Option String := none
  priority : Option TaskPriority := none
  status : Option TaskStatus := none
  retries : Nat := 0
  addedAt : Option Nat := none
deriving DecidableEq, Repr

/-- The priority actually used by `PriorityQueue.enqueue`:
`task.priority ?? TaskPriority.NORMAL`. -/
def effectivePriority (t : Task) : TaskPriority :=
  t.priority.getD TaskPriority.NORMAL

/-- The `enqueue` writes the effective priority back onto the task
(`task.priority = priority`). -/
def normalizePriority (t : Task) : Task :=
  { t with priority := some (effectivePriority t) }

/-- The `PriorityQueue`: one FIFO list per priority tier.  The source keeps a
`Map<number, Task[]>` initialised with the four priorities; since the four
keys are fixed at construction we embed the map as four list fields. -/
structure PriorityQueue where
  critical : List Task
  high : List Task
  normal : List Task
  low : List Task
deriving DecidableEq, Repr

/-- A freshly constructed `PriorityQueue` (all tiers empty). -/
def PriorityQueue.empty : PriorityQueue :=
  { critical := [], high := [], normal := [], low := [] }

/-- The `PriorityQueue.enqueue`: append the (priority-normalized) task to the
tail of its tier's list (`queue.push(task)`). -/
def PriorityQueue.enqueue (q : PriorityQueue) (t : Task) : PriorityQueue :=
  let t' := normalizePriority t
  match effectivePriority t with
  | TaskPriority.CRITICAL => { q with critical := q.critical ++ [t'] }
  | TaskPriority.HIGH => { q with high := q.high ++ [t'] }
  | TaskPriority.NORMAL => { q with normal := q.normal ++ [t'] }
  | TaskPriority.LOW => { q with low := q.low ++ [t'] }

/-- The `PriorityQueue.dequeue`: scan the tiers in the fixed order CRITICAL,
HIGH, NORMAL, LOW and `shift()` the head of the first non-empty one;
`null` when all are empty. -/
def PriorityQueue.dequeue (q : PriorityQueue) : Option (Task × PriorityQueue) :=
  match q.critical with
  | t :: rest => some (t, { q with critical := rest })
  | [] =>
    match q.high with
    | t :: rest => some (t, { q with high := rest })
    | [] =>
      match q.normal with
      | t :: rest => some (t, { q with normal := rest })
      | [] =>
        match q.low with
        | t :: rest => some (t, { q with low := rest })
        | [] => none

/-- The `PriorityQueue.size`: sum of the tier lengths. -/
def PriorityQueue.size (q : PriorityQueue) : Nat :=
  q.critical.length + q.high.length + q.normal.length + q.low.length

/-- Repeatedly calling `dequeue` until the queue is empty, with explicit
fuel (any fuel at least `size` drains the whole queue). -/
def PriorityQueue.drain : Nat → PriorityQueue → List Task
  | 0, _ => []
  | fuel + 1, q =>
    match q.dequeue with
    | none => []
    | some (t, q') => t :: PriorityQueue.drain fuel q'

/-- A sequence of `enqueue` calls, in order. -/
def enqueueAll (q : PriorityQueue) (ts : List Task) : PriorityQueue :=
  ts.foldl PriorityQueue.enqueue q

/-- The `QueueConfig` from `TaskQueue.ts` (the persistence/rate-limit options
are irrelevant to the claims and omitted; persistence is disabled). -/
structure QueueConfig where
  concurrency : Nat
  maxQueueSize : Nat
  enableDeadLetter : Bool
  maxRetries : Nat
  retryDelay : Nat
  timeout : Nat
deriving DecidableEq, Repr

/-- JavaScript truthiness of the optional `task.priority` field as tested
by `if (!t.priority)`: `undefined` is falsy, and so is the numeric enum
value `0` — which is `TaskPriority.CRITICAL`. -/
def jsFalsyPriority : Option TaskPriority → Bool
  | none => true
  | some p => p.toNat == 0

/-- The observable `TaskQueue` state touched by `add` (the dead-letter
queue and metrics counters other than `totalAdded` are modelled
separately). -/
structure TaskQueueState where
  priorityQueue : PriorityQueue
  isProcessing : Bool
  isPaused : Bool
  totalAdded : Nat
deriving DecidableEq, Repr

/-- The error thrown by `TaskQueue.add`: `new Error('Queue is full')`,
the spec's QueueFullError condition.  It is the only `throw` in `add`
(persistence disabled). -/
inductive AddError
  | queueFull
deriving DecidableEq, Repr

/-- The per-task body of `TaskQueue.add`: reject when
`priorityQueue.size() >= maxQueueSize`; otherwise assign an id if absent
(`genId` stands for `generateTaskId()`), replace a falsy priority with
NORMAL, set status PENDING, `addedAt = now`, `retries = 0`, enqueue, and
bump `totalAdded`.  Returns the updated state together with the task as
mutated. -/
def TaskQueue.addOne (cfg : QueueConfig) (st : TaskQueueState) (t : Task)
    (genId : String) (now : Nat) : Except AddError (TaskQueueState × Task) :=
  if cfg.maxQueueSize ≤ st.priorityQueue.size then
    Except.error AddError.queueFull
  else
    let t := if t.id.isNone then { t with id := some genId } else t
    let t := if jsFalsyPriority t.priority then
        { t with priority := some TaskPriority.NORMAL } else t
    let t := { t with status := some TaskStatus.PENDING, addedAt := some now, retries := 0 }
    Except.ok
      ({ st with
          priorityQueue := st.priorityQueue.enqueue t,
          totalAdded := st.totalAdded + 1 }, t)

/-- The tail of `TaskQueue.add`: auto-start the processing loop when it is
idle (`if (!this.isProcessing && !this.isPaused) this.start()`; `start`
sets `isProcessing = true` and `isPaused = false`). -/
def TaskQueue.autoStart (st : TaskQueueState) : TaskQueueState :=
  if !st.isProcessing && !st.isPaused then
    { st with isProcessing := true, isPaused := false }
  else st

/-- The `handleTaskError` outcome: the mutated task, the backoff delay of the
scheduled re-enqueue (`none` when the task failed terminally), and whether
the task was copied into the dead-letter queue. -/
structure ErrorHandlingResult where
  task : Task
  reenqueueDelay : Option Nat
  deadLettered : Bool
deriving DecidableEq, Repr

/-- The `TaskQueue.handleTaskError`: increment `task.retries`; if the new
count is `< maxRetries`, set status RETRYING and schedule a re-enqueue
after `retryDelay * 2^(retries-1)` ms; otherwise set status FAILED and,
when dead-lettering is enabled, add the task to the DeadLetterQueue. -/
def handleTaskError (cfg : QueueConfig) (t : Task) : ErrorHandlingResult :=
  let retries := t.retries + 1
  if retries < cfg.maxRetries then
    { task := { t with retries := retries, status := some TaskStatus.RETRYING },
      reenqueueDelay := some (cfg.retryDelay * 2 ^ (retries - 1)),
      deadLettered := false }
  else
    { task := { t with retries := retries, status := some TaskStatus.FAILED },
      reenqueueDelay := none,
      deadLettered := cfg.enableDeadLetter }

/-- The lifecycle of a task whose `execute` rejects on every attempt, as
driven by `processTask`/`handleTaskError`: each attempt sets status
PROCESSING, fails, and either retries or terminates.  Returns the list of
statuses the task passes through and the number of `DeadLetterQueue.add`
calls made for it. -/
def alwaysFailRun (cfg : QueueConfig) : Nat → Task → List TaskStatus × Nat
  | 0, _ => ([], 0)
  | fuel + 1, t =>
    let r := handleTaskError cfg { t with status := some TaskStatus.PROCESSING }
    if r.reenqueueDelay.isSome then
      let rest := alwaysFailRun cfg fuel r.task
      (TaskStatus.PROCESSING :: r.task.status.getD TaskStatus.PENDING :: rest.1, rest.2)
    else
      ([TaskStatus.PROCESSING, r.task.status.getD TaskStatus.PENDING],
        if r.deadLettered then 1 else 0)

/-- The full status history of an always-failing task: `add` puts it in
with status PENDING and `retries = 0`, then the processing loop runs it
until it terminates (`fuel` bounds the number of attempts). -/
def alwaysFailLifecycle (cfg : QueueConfig) (fuel : Nat) (t : Task) :
    List TaskStatus × Nat :=
  let r := alwaysFailRun cfg fuel { t with status := some TaskStatus.PENDING, retries := 0 }
  (TaskStatus.PENDING :: r.1, r.2)

/-- A sample queue configuration: `maxRetries = 3`, dead-lettering on. -/
def sampleConfig : QueueConfig :=
  { concurrency := 2, maxQueueSize := 100, enableDeadLetter := true,
    maxRetries := 3, retryDelay := 1000, timeout := 30000 }

/-- A sample task. -/
def sampleTask : Task :=
  { id := some "task-1", priority := some TaskPriority.NORMAL }



/-- The initial (freshly constructed, idle) `TaskQueue` state. -/
def initialTaskQueueState : TaskQueueState :=
  { priorityQueue := PriorityQueue.empty, isProcessing := false,
    isPaused := false, totalAdded := 0 }

/-- The state after an `add` call, unchanged when the call threw (test
scaffolding for chaining `addOne` calls). -/
def TaskQueue.addState (cfg : QueueConfig) (st : TaskQueueState) (t : Task)
    (genId : String) (now : Nat) : TaskQueueState :=
  match TaskQueue.addOne cfg st t genId now with
  | Except.ok (st', _) => st'
  | Except.error _ => st

/-- A configuration with `maxQueueSize = 2`. -/
def smallConfig : QueueConfig :=
  { concurrency := 1, maxQueueSize := 2, enableDeadLetter := false,
    maxRetries := 3, retryDelay := 1000, timeout := 30000 }

/-- A task carrying an explicit CRITICAL priority. -/
def critAddTask : Task :=
  { id := some "crit", priority := some TaskPriority.CRITICAL }

/-- What `add` turns `critAddTask` into. -/
def critAddTaskOut : Task :=
  { id := some "crit", priority := some TaskPriority.NORMAL,
    status := some TaskStatus.PENDING, retries := 0, addedAt := some 5 }

/-- The queue state after adding `critAddTask` to a fresh queue. -/
def critAddStateOut : TaskQueueState :=
  { priorityQueue := { critical := [], high := [], normal := [critAddTaskOut], low := [] },
    isProcessing := false, isPaused := false, totalAdded := 1 }

/-- The queue state after one successful add to a fresh `maxQueueSize = 2`
queue. -/
def smallState1 : TaskQueueState :=
  TaskQueue.addState smallConfig initialTaskQueueState { id := some "a" } "g1" 0

/-- The queue state after two successful adds to a fresh
`maxQueueSize = 2` queue. -/
def smallState2 : TaskQueueState :=
  TaskQueue.addState smallConfig smallState1 { id := some "b" } "g2" 1

/-- The state read and written by `processQueue`/`processTask` that the
concurrency claim is about: the pending queue, the `activeTasks` id set
and the loop flags. -/
structure LoopState where
  queue : PriorityQueue
  activeTasks : Finset String
  isProcessing : Bool
  isPaused : Bool

/-- A newly constructed queue: nothing active, loop not running. -/
def initialLoopState : LoopState :=
  { queue := PriorityQueue.empty, activeTasks := ∅,
    isProcessing := false, isPaused := false }

/-- Labels for the atomic steps of the processing loop and its
surrounding events. -/
inductive LoopAction
  | sleptAtCapacity
  | startedTask (t : Task)
  | sleptEmptyQueue
  | finishedTask (id : String)
  | enqueuedTask (t : Task)

/-- One atomic step of the `TaskQueue` processing machinery.  JavaScript
runs each synchronous block atomically, so one `processQueue` loop
iteration — the capacity check, the dequeue and the synchronous prefix of
the unawaited `processTask` call (which adds the id to `activeTasks`) —
is a single step.  A task body settling (the `finally` that removes the
id from `activeTasks`) and a deferred re-enqueue (the retry `setTimeout`
callback, or an external `add`) are separate steps. -/
inductive LoopStep (cfg : QueueConfig) : LoopState → LoopAction → LoopState → Prop
  | sleptAtCapacity (s : LoopState)
      (hrun : s.isProcessing = true) (hp : s.isPaused = false)
      (hcap : cfg.concurrency ≤ s.activeTasks.card) :
      LoopStep cfg s LoopAction.sleptAtCapacity s
  | startedTask (s : LoopState) (t : Task) (q' : PriorityQueue)
      (hrun : s.isProcessing = true) (hp : s.isPaused = false)
      (hcap : s.activeTasks.card < cfg.concurrency)
      (hdq : s.queue.dequeue = some (t, q')) :
      LoopStep cfg s (LoopAction.startedTask t)
        { s with queue := q', activeTasks := insert (t.id.getD "") s.activeTasks }
  | sleptEmptyQueue (s : LoopState)
      (hrun : s.isProcessing = true) (hp : s.isPaused = false)
      (hcap : s.activeTasks.card < cfg.concurrency)
      (hdq : s.queue.dequeue = none) :
      LoopStep cfg s LoopAction.sleptEmptyQueue
        { s with isProcessing :=
            if s.activeTasks.card = 0 then false else s.isProcessing }
  | finishedTask (s : LoopState) (id : String)
      (hid : id ∈ s.activeTasks) :
      LoopStep cfg s (LoopAction.finishedTask id)
        { s with activeTasks := s.activeTasks.erase id }
  | enqueuedTask (s : LoopState) (t : Task) :
      LoopStep cfg s (LoopAction.enqueuedTask t)
        { s with queue := s.queue.enqueue t }

/-- States reachable by the processing machinery from a fresh queue. -/
inductive LoopReachable (cfg : QueueConfig) : LoopState → Prop
  | init : LoopReachable cfg initialLoopState
  | step {s : LoopState} {a : LoopAction} {s' : LoopState} :
      LoopReachable cfg s → LoopStep cfg s a s' → LoopReachable cfg s'

/-- The dead-letter store: a JS `Map<string, Task>` (an insertion-ordered
association list) plus the `maxSize` bound. -/
structure DeadLetterQueue where
  entries : List (String × Task)
  maxSize : Nat
deriving DecidableEq, Repr

/-- JS `Map.set` semantics: overwrite in place when the key exists
(keeping its original insertion position), otherwise append at the
end. -/
def mapSet (l : List (String × Task)) (k : String) (v : Task) :
    List (String × Task) :=
  if l.any (fun p => p.1 == k) then
    l.map (fun p => if p.1 == k then (k, v) else p)
  else l ++ [(k, v)]

/-- The result of one `DeadLetterQueue.add` call: the new store and the
`overflow` events emitted (each names the evicted task id). -/
structure DLQAddResult where
  dlq : DeadLetterQueue
  overflowEvents : List String
deriving DecidableEq, Repr

/-- Method `DeadLetterQueue.add`: when `size >= maxSize`, delete the
oldest key (`tasks.keys().next().value`) and emit one `overflow` event,
then insert the new task under `task.id`. -/
def DeadLetterQueue.add (q : DeadLetterQueue) (t : Task) : DLQAddResult :=
  let evicted : List (String × Task) × List String :=
    if q.maxSize ≤ q.entries.length then
      match q.entries with
      | [] => (q.entries, [])
      | (k, _) :: rest => (rest, [k])
    else (q.entries, [])
  { dlq := { q with entries := mapSet evicted.1 (t.id.getD "") t },
    overflowEvents := evicted.2 }

/-- A sequence of `add` calls, collecting all overflow events in
order. -/
def DeadLetterQueue.addAll (q : DeadLetterQueue) (ts : List Task) :
    DeadLetterQueue × List String :=
  ts.foldl (fun acc t =>
    let r := DeadLetterQueue.add acc.1 t
    (r.dlq, acc.2 ++ r.overflowEvents)) (q, [])

/-- The dead-letter queue the `TaskQueue` constructor builds for itself:
`new DeadLetterQueue(config.maxRetries)` — the capacity argument is the
retry limit, not an independent dead-letter capacity. -/
def TaskQueue.mkDeadLetterQueue (cfg : QueueConfig) : DeadLetterQueue :=
  { entries := [], maxSize := cfg.maxRetries }

/-- Ten tasks with distinct ids. -/
def tenTasks : List Task :=
  ["d0", "d1", "d2", "d3", "d4", "d5", "d6", "d7", "d8", "d9"].map
    (fun s => { id := some s })

/-- An empty dead-letter queue of capacity 3. -/
def dlq3 : DeadLetterQueue := { entries := [], maxSize := 3 }

/-- The `BackoffType` enum of `BackoffStrategy.ts`. -/
inductive BackoffType
  | EXPONENTIAL
  | LINEAR
  | CONSTANT
  | FIBONACCI
  | DECORRELATED_JITTER
deriving DecidableEq, Repr

/-- The `BackoffConfig` of `BackoffStrategy.ts`, after the constructor
has replaced falsy `multiplier`/`increment`/`jitterFactor` with the
defaults 2, 1000 and 0.1.  Delays are JS numbers; the values involved are
exact, so we model them as rationals. -/
structure BackoffConfig where
  type : BackoffType
  initialDelay : ℚ
  maxDelay : ℚ
  multiplier : ℚ := 2
  increment : ℚ := 1000
  jitter : Bool := false
  jitterFactor : ℚ := 1 / 10
deriving DecidableEq, Repr

/-- The mutable per-strategy state: the attempt counter (the Fibonacci
cache `fibSequence` is a memoisation of `Nat.fib` and carries no extra
information). -/
structure BackoffState where
  attempt : Nat
deriving DecidableEq, Repr

/-- The `switch` of `next()`: the base delay for a given (1-based)
attempt.  `rand` stands for the `Math.random()` draw in `[0,1)`, used
only by the decorrelated-jitter type. -/
def baseDelay (cfg : BackoffConfig) (attempt : Nat) (rand : ℚ) : ℚ :=
  match cfg.type with
  | BackoffType.EXPONENTIAL => cfg.initialDelay * cfg.multiplier ^ (attempt - 1)
  | BackoffType.LINEAR => cfg.initialDelay + cfg.increment * ((attempt - 1 : ℕ) : ℚ)
  | BackoffType.CONSTANT => cfg.initialDelay
  | BackoffType.FIBONACCI => cfg.initialDelay * (Nat.fib attempt : ℚ)
  | BackoffType.DECORRELATED_JITTER =>
    let previousDelay :=
      if attempt = 1 then cfg.initialDelay
      else cfg.initialDelay * 2 ^ (attempt - 2)
    rand * (previousDelay * 3 - cfg.initialDelay) + cfg.initialDelay

/-- Method `applyJitter`: add symmetric randomness of amplitude
`delay * jitterFactor`. -/
def applyJitter (cfg : BackoffConfig) (delay rand : ℚ) : ℚ :=
  delay + (rand * 2 - 1) * (delay * cfg.jitterFactor)

/-- Method `next()`: pre-increment the attempt counter, compute the base
delay, apply jitter when enabled, clamp to `maxDelay`. -/
def BackoffStrategy.next (cfg : BackoffConfig) (s : BackoffState) (rand : ℚ) :
    ℚ × BackoffState :=
  let attempt := s.attempt + 1
  let delay := baseDelay cfg attempt rand
  let delay := if cfg.jitter then applyJitter cfg delay rand else delay
  (min delay cfg.maxDelay, { attempt := attempt })

/-- The delays returned by `n` successive `next()` calls starting from
state `s`. -/
def BackoffStrategy.delays (cfg : BackoffConfig) (rand : ℚ) :
    Nat → BackoffState → List ℚ
  | 0, _ => []
  | n + 1, s =>
    let r := BackoffStrategy.next cfg s rand
    r.1 :: BackoffStrategy.delays cfg rand n r.2

/-- An exponential backoff configuration with `initialDelay = 1000` and
the defaulted `multiplier = 2`, jitter disabled. -/
def expConfig : BackoffConfig :=
  { type := BackoffType.EXPONENTIAL, initialDelay := 1000, maxDelay := 30000 }

/-- The `CircuitState` enum. -/
inductive CircuitState
  | CLOSED
  | OPEN
  | HALF_OPEN
deriving DecidableEq, Repr

/-- The `CircuitBreakerConfig`, after the constructor has defaulted
`halfOpenMaxAttempts` to 3 (`monitoringPeriod` and `resetTimeout` only
drive the metrics-reset timer, which no claim touches). -/
structure CircuitBreakerConfig where
  failureThreshold : Nat
  successThreshold : Nat
  timeout : Nat
  halfOpenMaxAttempts : Nat := 3
deriving DecidableEq, Repr

/-- The mutable state of a `CircuitBreaker`: the state enum, the
counters of `CircuitMetrics` that drive transitions, and
`halfOpenAttempts`.  `totalRequests` is incremented exactly when `fn()`
is about to be invoked, so it counts invocations of the guarded
function. -/
structure CircuitBreakerState where
  state : CircuitState
  consecutiveFailures : Nat
  consecutiveSuccesses : Nat
  halfOpenAttempts : Nat
  totalRequests : Nat
deriving DecidableEq, Repr

/-- A freshly constructed breaker: CLOSED with zeroed counters. -/
def CircuitBreakerState.initial : CircuitBreakerState :=
  { state := CircuitState.CLOSED, consecutiveFailures := 0,
    consecutiveSuccesses := 0, halfOpenAttempts := 0, totalRequests := 0 }

/-- Method `open()`: no-op when already OPEN, otherwise enter OPEN and
reset `halfOpenAttempts` (the `openTimer` it arms is modelled by
`CircuitBreaker.timerFire`). -/
def CircuitBreaker.openCircuit (cb : CircuitBreakerState) : CircuitBreakerState :=
  if cb.state = CircuitState.OPEN then cb
  else { cb with state := CircuitState.OPEN, halfOpenAttempts := 0 }

/-- Method `close()`: no-op when already CLOSED, otherwise enter CLOSED
and reset `consecutiveFailures` and `halfOpenAttempts`. -/
def CircuitBreaker.closeCircuit (cb : CircuitBreakerState) : CircuitBreakerState :=
  if cb.state = CircuitState.CLOSED then cb
  else { cb with state := CircuitState.CLOSED, consecutiveFailures := 0, halfOpenAttempts := 0 }

/-- Method `onSuccess()`: bump `consecutiveSuccesses`, clear
`consecutiveFailures`; in HALF_OPEN, close once `successThreshold`
consecutive successes have accumulated. -/
def CircuitBreaker.onSuccess (cfg : CircuitBreakerConfig)
    (cb : CircuitBreakerState) : CircuitBreakerState :=
  let cb := { cb with consecutiveSuccesses := cb.consecutiveSuccesses + 1, consecutiveFailures := 0 }
  if cb.state = CircuitState.HALF_OPEN then
    if cfg.successThreshold ≤ cb.consecutiveSuccesses then
      CircuitBreaker.closeCircuit cb
    else cb
  else cb

/-- Method `onFailure()`: bump `consecutiveFailures`, clear
`consecutiveSuccesses`; any failure in HALF_OPEN reopens; in CLOSED,
open once `failureThreshold` consecutive failures have accumulated. -/
def CircuitBreaker.onFailure (cfg : CircuitBreakerConfig)
    (cb : CircuitBreakerState) : CircuitBreakerState :=
  let cb := { cb with consecutiveFailures := cb.consecutiveFailures + 1, consecutiveSuccesses := 0 }
  if cb.state = CircuitState.HALF_OPEN then
    CircuitBreaker.openCircuit cb
  else if cb.state = CircuitState.CLOSED then
    if cfg.failureThreshold ≤ cb.consecutiveFailures then
      CircuitBreaker.openCircuit cb
    else cb
  else cb

/-- The observable outcome of one `execute(fn)` call.  The two rejected
outcomes are both thrown as `CircuitBreakerOpenError`; `failed` is the
guarded function's own error, rethrown. -/
inductive ExecuteOutcome
  | rejectedOpen
  | rejectedHalfOpenLimit
  | succeeded
  | failed
deriving DecidableEq, Repr

/-- Method `execute(fn)`: reject in OPEN; reject in HALF_OPEN once
`halfOpenAttempts` has reached `halfOpenMaxAttempts`, else count the
probe; then invoke `fn` (counted by `totalRequests`) and dispatch to
`onSuccess`/`onFailure`.  `fnFails` is whether `fn` rejects. -/
def CircuitBreaker.execute (cfg : CircuitBreakerConfig)
    (cb : CircuitBreakerState) (fnFails : Bool) :
    ExecuteOutcome × CircuitBreakerState :=
  if cb.state = CircuitState.OPEN then
    (ExecuteOutcome.rejectedOpen, cb)
  else if cb.state = CircuitState.HALF_OPEN ∧
      cfg.halfOpenMaxAttempts ≤ cb.halfOpenAttempts then
    (ExecuteOutcome.rejectedHalfOpenLimit, cb)
  else
    let cb := if cb.state = CircuitState.HALF_OPEN then
        { cb with halfOpenAttempts := cb.halfOpenAttempts + 1 } else cb
    let cb := { cb with totalRequests := cb.totalRequests + 1 }
    if fnFails then (ExecuteOutcome.failed, CircuitBreaker.onFailure cfg cb)
    else (ExecuteOutcome.succeeded, CircuitBreaker.onSuccess cfg cb)

/-- The `openTimer` armed by `open()` firing after `timeout` ms:
`halfOpen()` — enter HALF_OPEN and reset `halfOpenAttempts` and the
consecutive-success counter. -/
def CircuitBreaker.timerFire (cb : CircuitBreakerState) : CircuitBreakerState :=
  { cb with state := CircuitState.HALF_OPEN, halfOpenAttempts := 0, consecutiveSuccesses := 0 }

/-- The state after `n` `execute` calls whose guarded function always
behaves the same way (`fnFails`). -/
def CircuitBreaker.applyCalls (cfg : CircuitBreakerConfig) (fnFails : Bool) :
    Nat → CircuitBreakerState → CircuitBreakerState
  | 0, cb => cb
  | n + 1, cb =>
    CircuitBreaker.applyCalls cfg fnFails n
      (CircuitBreaker.execute cfg cb fnFails).2

/-- A breaker configuration matching the spec's example:
`failureThreshold = 5`, `successThreshold = 2`, default
`halfOpenMaxAttempts = 3`. -/
def cbConfig : CircuitBreakerConfig :=
  { failureThreshold := 5, successThreshold := 2, timeout := 1000 }

/-- The immediate outcome of one `RateLimiter.acquire` call under a given
strategy: admit now, sleep-and-retry, park in the leaky-bucket admission
queue, or throw (`Rate limit exceeded: bucket is full`, the spec's
RateLimitExceededError). -/
inductive AcquireOutcome
  | proceed
  | wait (ms : ℚ)
  | queued
  | reject
deriving DecidableEq, Repr

/-- The per-key window record of the window strategies. -/
structure RateLimitWindow where
  start : ℚ
  count : Nat
  requests : List ℚ
deriving DecidableEq, Repr

/-- Method `acquireFixedWindow`: requests are counted in the bucket
`floor(now / windowSize) * windowSize`; at the limit the caller sleeps
until the next bucket boundary and retries.  `limit` and `windowSize`
stand for `getLimit`/`getWindowSize`, constants derived from the
configuration. -/
def acquireFixedWindow (limit : Nat) (windowSize : ℚ)
    (w : Option RateLimitWindow) (now : ℚ) :
    AcquireOutcome × RateLimitWindow :=
  let windowStart : ℚ := (⌊now / windowSize⌋ : ℤ) * windowSize
  let w := match w with
    | some w => if w.start = windowStart then w
        else { start := windowStart, count := 0, requests := [] }
    | none => { start := windowStart, count := 0, requests := [] }
  if limit ≤ w.count then
    (AcquireOutcome.wait (windowStart + windowSize - now), w)
  else
    (AcquireOutcome.proceed, { w with count := w.count + 1 })

/-- Method `acquireSlidingWindow`: prune timestamps older than
`now - windowSize`; at the limit the caller sleeps until the oldest
retained timestamp expires and retries (`Math.min` of an empty list is
unreachable there since the count is then 0). -/
def acquireSlidingWindow (limit : Nat) (windowSize : ℚ)
    (w : Option RateLimitWindow) (now : ℚ) :
    AcquireOutcome × RateLimitWindow :=
  let w := w.getD { start := now, count := 0, requests := [] }
  let requests := w.requests.filter (fun t => decide (now - windowSize < t))
  let w := { w with requests := requests, count := requests.length }
  if limit ≤ w.count then
    let oldestRequest : ℚ := match w.requests with
      | [] => now
      | r :: rs => rs.foldl min r
    (AcquireOutcome.wait (oldestRequest + windowSize - now + 1), w)
  else
    (AcquireOutcome.proceed,
      { w with requests := w.requests ++ [now], count := w.count + 1 })

/-- The token-bucket state. -/
structure TokenBucketState where
  tokens : ℚ
  capacity : ℚ
  refillRate : ℚ
  lastRefill : ℚ
deriving DecidableEq, Repr

/-- Method `acquireTokenBucket`: refill from elapsed time, then either
consume one token or sleep proportionally to the token deficit and
retry. -/
def acquireTokenBucket (b : TokenBucketState) (now : ℚ) :
    AcquireOutcome × TokenBucketState :=
  let elapsed := (now - b.lastRefill) / 1000
  let b := { b with
    tokens := min b.capacity (b.tokens + elapsed * b.refillRate),
    lastRefill := now }
  if 1 ≤ b.tokens then
    (AcquireOutcome.proceed, { b with tokens := b.tokens - 1 })
  else
    (AcquireOutcome.wait ((1 - b.tokens) / b.refillRate * 1000), b)

/-- The leaky-bucket state: one queue entry per parked caller (its
recorded timestamp), the fixed admission capacity, and the leak
bookkeeping. -/
structure LeakyBucketState where
  queue : List ℚ
  capacity : Nat
  leakRate : ℚ
  lastLeak : ℚ
deriving DecidableEq, Repr

/-- Method `acquireLeakyBucket`: throw immediately when the admission
queue is already at capacity, otherwise append the caller to the queue
where it awaits the background leak. -/
def acquireLeakyBucket (b : LeakyBucketState) (now : ℚ) :
    AcquireOutcome × LeakyBucketState :=
  if b.capacity ≤ b.queue.length then
    (AcquireOutcome.reject, b)
  else
    (AcquireOutcome.queued, { b with queue := b.queue ++ [now] })

/-- A leaky bucket of capacity 2 with an empty admission queue. -/
def leaky2 : LeakyBucketState :=
  { queue := [], capacity := 2, leakRate := 1, lastLeak := 0 }

lemma enqueueAll_critical (ts : List Task) (q : PriorityQueue) :
    (enqueueAll q ts).critical =
      q.critical ++
        (ts.filter (fun t => effectivePriority t == TaskPriority.CRITICAL)).map normalizePriority := by
  induction ts generalizing q with
  | nil => simp [enqueueAll]
  | cons t ts ih =>
    have step : enqueueAll q (t :: ts) = enqueueAll (q.enqueue t) ts := rfl
    rw [step, ih]
    rcases hp : effectivePriority t with _ | _ | _ | _ <;>
      simp [PriorityQueue.enqueue, hp]

lemma enqueueAll_high (ts : List Task) (q : PriorityQueue) :
    (enqueueAll q ts).high =
      q.high ++
        (ts.filter (fun t => effectivePriority t == TaskPriority.HIGH)).map normalizePriority := by
  induction ts generalizing q with
  | nil => simp [enqueueAll]
  | cons t ts ih =>
    have step : enqueueAll q (t :: ts) = enqueueAll (q.enqueue t) ts := rfl
    rw [step, ih]
    rcases hp : effectivePriority t with _ | _ | _ | _ <;>
      simp [PriorityQueue.enqueue, hp]

lemma enqueueAll_normal (ts : List Task) (q : PriorityQueue) :
    (enqueueAll q ts).normal =
      q.normal ++
        (ts.filter (fun t => effectivePriority t == TaskPriority.NORMAL)).map normalizePriority := by
  induction ts generalizing q with
  | nil => simp [enqueueAll]
  | cons t ts ih =>
    have step : enqueueAll q (t :: ts) = enqueueAll (q.enqueue t) ts := rfl
    rw [step, ih]
    rcases hp : effectivePriority t with _ | _ | _ | _ <;>
      simp [PriorityQueue.enqueue, hp]

lemma enqueueAll_low (ts : List Task) (q : PriorityQueue) :
    (enqueueAll q ts).low =
      q.low ++
        (ts.filter (fun t => effectivePriority t == TaskPriority.LOW)).map normalizePriority := by
  induction ts generalizing q with
  | nil => simp [enqueueAll]
  | cons t ts ih =>
    have step : enqueueAll q (t :: ts) = enqueueAll (q.enqueue t) ts := rfl
    rw [step, ih]
    rcases hp : effectivePriority t with _ | _ | _ | _ <;>
      simp [PriorityQueue.enqueue, hp]

/-- Draining with enough fuel yields the tiers concatenated in priority
order, each tier in its own (FIFO) order. -/
lemma drain_eq_concat (n : Nat) (q : PriorityQueue) (h : q.size ≤ n) :
    PriorityQueue.drain n q = q.critical ++ q.high ++ q.normal ++ q.low := by
  induction n generalizing q with
  | zero =>
    obtain ⟨c, hi, nr, lo⟩ := q
    simp only [PriorityQueue.size] at h
    have hc : c = [] := List.length_eq_zero.mp (by omega)
    have hh : hi = [] := List.length_eq_zero.mp (by omega)
    have hn : nr = [] := List.length_eq_zero.mp (by omega)
    have hl : lo = [] := List.length_eq_zero.mp (by omega)
    subst hc hh hn hl
    rfl
  | succ n ih =>
    obtain ⟨c, hi, nr, lo⟩ := q
    simp only [PriorityQueue.size] at h
    rcases c with _ | ⟨t, c⟩
    · rcases hi with _ | ⟨t, hi⟩
      · rcases nr with _ | ⟨t, nr⟩
        · rcases lo with _ | ⟨t, lo⟩
          · rfl
          · have hs : (PriorityQueue.mk [] [] [] lo).size ≤ n := by
              simp only [PriorityQueue.size]; simp at h ⊢; omega
            simp [PriorityQueue.drain, PriorityQueue.dequeue, ih _ hs]
        · have hs : (PriorityQueue.mk [] [] nr lo).size ≤ n := by
            simp only [PriorityQueue.size]; simp at h ⊢; omega
          simp [PriorityQueue.drain, PriorityQueue.dequeue, ih _ hs]
      · have hs : (PriorityQueue.mk [] hi nr lo).size ≤ n := by
          simp only [PriorityQueue.size]; simp at h ⊢; omega
        simp [PriorityQueue.drain, PriorityQueue.dequeue, ih _ hs]
    · have hs : (PriorityQueue.mk c hi nr lo).size ≤ n := by
        simp only [PriorityQueue.size]; simp at h ⊢; omega
      simp [PriorityQueue.drain, PriorityQueue.dequeue, ih _ hs]

/-- C3: For every sequence of `PriorityQueue.enqueue` calls (a missing
priority defaulting to NORMAL), repeatedly calling `dequeue` returns all
CRITICAL tasks in insertion order, then all HIGH, then all NORMAL, then
all LOW; within a single tier, equal-priority tasks dequeue in exactly
their enqueue order (the filters preserve the input order). -/
theorem priorityQueue_dequeue_order (ts : List Task) :
    PriorityQueue.drain (enqueueAll PriorityQueue.empty ts).size (enqueueAll PriorityQueue.empty ts) =
      (ts.filter (fun t => effectivePriority t == TaskPriority.CRITICAL)).map normalizePriority ++
      (ts.filter (fun t => effectivePriority t == TaskPriority.HIGH)).map normalizePriority ++
      (ts.filter (fun t => effectivePriority t == TaskPriority.NORMAL)).map normalizePriority ++
      (ts.filter (fun t => effectivePriority t == TaskPriority.LOW)).map normalizePriority := by
  rw [drain_eq_concat _ _ (le_refl _)]
  rw [enqueueAll_critical, enqueueAll_high, enqueueAll_normal, enqueueAll_low]
  simp [PriorityQueue.empty]


lemma enqueue_size (q : PriorityQueue) (t : Task) :
    (q.enqueue t).size = q.size + 1 := by
  rcases hp : effectivePriority t with _ | _ | _ | _ <;>
    simp [PriorityQueue.enqueue, hp, PriorityQueue.size] <;> omega

lemma enqueue_critical_of_ne (q : PriorityQueue) (t : Task)
    (h : effectivePriority t ≠ TaskPriority.CRITICAL) :
    (q.enqueue t).critical = q.critical := by
  rcases hp : effectivePriority t with _ | _ | _ | _
  · exact absurd hp h
  · simp [PriorityQueue.enqueue, hp]
  · simp [PriorityQueue.enqueue, hp]
  · simp [PriorityQueue.enqueue, hp]

/-- C1 (counterexample): with `maxRetries = 3` and dead-lettering
enabled, a task whose `execute` rejects on every attempt reaches RETRYING
only twice — not three times — before FAILED: `handleTaskError`
increments `retries` before the `retries < maxRetries` check, so the
third failed execution already sees `retries = 3` and fails
terminally. -/
theorem retryExhaustion_counterexample :
    (alwaysFailLifecycle sampleConfig 4 sampleTask).1 =
      [TaskStatus.PENDING, TaskStatus.PROCESSING, TaskStatus.RETRYING,
       TaskStatus.PROCESSING, TaskStatus.RETRYING, TaskStatus.PROCESSING,
       TaskStatus.FAILED] ∧
    (alwaysFailLifecycle sampleConfig 4 sampleTask).1.count TaskStatus.RETRYING = 2 ∧
    ¬ ((alwaysFailLifecycle sampleConfig 4 sampleTask).1.count TaskStatus.RETRYING = 3) ∧
    (alwaysFailLifecycle sampleConfig 4 sampleTask).2 = 1 := by
  refine ⟨rfl, rfl, by decide, rfl⟩

/-- C1 (amended): with `maxRetries = 3` and dead-lettering enabled, an
always-failing task passes through PENDING, then PROCESSING → RETRYING
twice, then PROCESSING → FAILED on its third execution, and is added to
the DeadLetterQueue exactly once; in general, after a failed execution
`handleTaskError` moves the task to RETRYING when the incremented retry
count is still below `maxRetries`, and to FAILED (dead-lettering it
exactly when enabled) once that count has reached `maxRetries`. -/
theorem retryExhaustion (cfg : QueueConfig) (t : Task)
    (h3 : cfg.maxRetries = 3) (hdl : cfg.enableDeadLetter = true) :
    alwaysFailLifecycle cfg 3 t =
      ([TaskStatus.PENDING, TaskStatus.PROCESSING, TaskStatus.RETRYING,
        TaskStatus.PROCESSING, TaskStatus.RETRYING, TaskStatus.PROCESSING,
        TaskStatus.FAILED], 1) ∧
    (∀ (c : QueueConfig) (u : Task),
      (handleTaskError c u).task.status =
        some (if u.retries + 1 < c.maxRetries then TaskStatus.RETRYING
          else TaskStatus.FAILED) ∧
      (handleTaskError c u).deadLettered =
        (if u.retries + 1 < c.maxRetries then false else c.enableDeadLetter) ∧
      (handleTaskError c u).task.retries = u.retries + 1) := by
  constructor
  · simp [alwaysFailLifecycle, alwaysFailRun, handleTaskError, h3, hdl]
  · intro c u
    by_cases h : u.retries + 1 < c.maxRetries <;>
      simp [handleTaskError, h]

/-- Witness for `retryExhaustion` at the sample configuration. -/
theorem retryExhaustion_witness :
    sampleConfig.maxRetries = 3 ∧ sampleConfig.enableDeadLetter = true ∧
    alwaysFailLifecycle sampleConfig 3 sampleTask =
      ([TaskStatus.PENDING, TaskStatus.PROCESSING, TaskStatus.RETRYING,
        TaskStatus.PROCESSING, TaskStatus.RETRYING, TaskStatus.PROCESSING,
        TaskStatus.FAILED], 1) :=
  ⟨rfl, rfl, (retryExhaustion sampleConfig sampleTask rfl rfl).1⟩

/-- C5: since CRITICAL's numeric enum value 0 is falsy, the
`if (!t.priority)` in `TaskQueue.add` re-assigns NORMAL to any task whose
priority is explicitly CRITICAL (or absent), so no task added through
`add` is ever enqueued into the PriorityQueue's CRITICAL tier. -/
theorem addOne_critical_becomes_normal (cfg : QueueConfig)
    (st : TaskQueueState) (t : Task) (genId : String) (now : Nat)
    (st' : TaskQueueState) (t' : Task)
    (hok : TaskQueue.addOne cfg st t genId now = Except.ok (st', t')) :
    (t.priority = some TaskPriority.CRITICAL →
      t'.priority = some TaskPriority.NORMAL) ∧
    t'.priority ≠ some TaskPriority.CRITICAL ∧
    st'.priorityQueue.critical = st.priorityQueue.critical := by
  by_cases hfull : cfg.maxQueueSize ≤ st.priorityQueue.size
  · simp [TaskQueue.addOne, hfull] at hok
  · simp only [TaskQueue.addOne, if_neg hfull, Except.ok.injEq, Prod.mk.injEq] at hok
    obtain ⟨hst, ht⟩ := hok
    have hpri : t'.priority =
        if jsFalsyPriority t.priority then some TaskPriority.NORMAL
        else t.priority := by
      subst ht
      rcases t.id with _ | tid <;> by_cases hf : jsFalsyPriority t.priority <;>
        simp [hf]
    have hne : t'.priority ≠ some TaskPriority.CRITICAL := by
      rw [hpri]
      rcases hp : t.priority with _ | p
      · simp [jsFalsyPriority]
      · cases p <;> simp [jsFalsyPriority, TaskPriority.toNat]
    refine ⟨?_, hne, ?_⟩
    · intro hcrit
      rw [hpri, hcrit]
      simp [jsFalsyPriority, TaskPriority.toNat]
    · have heff : effectivePriority t' ≠ TaskPriority.CRITICAL := by
        unfold effectivePriority
        rcases hq : t'.priority with _ | p
        · simp
        · intro hcon
          apply hne
          rw [hq]
          simp at hcon
          rw [hcon]
      rw [ht] at hst
      subst hst
      exact enqueue_critical_of_ne st.priorityQueue t' heff

/-- Witness for `addOne_critical_becomes_normal`: adding a task with
explicit CRITICAL priority to a fresh queue enqueues it as NORMAL and
leaves the CRITICAL tier empty. -/
theorem addOne_critical_becomes_normal_witness :
    critAddTaskOut.priority = some TaskPriority.NORMAL ∧
    critAddStateOut.priorityQueue.critical = [] :=
  ⟨(addOne_critical_becomes_normal sampleConfig initialTaskQueueState
      critAddTask "gen" 5 critAddStateOut critAddTaskOut rfl).1 rfl,
    (addOne_critical_becomes_normal sampleConfig initialTaskQueueState
      critAddTask "gen" 5 critAddStateOut critAddTaskOut rfl).2.2⟩

/-- C6: `TaskQueue.add` rejects — with the queue-full error, the only
error it can throw — exactly when the pending count is already at
`maxQueueSize`; otherwise it assigns an id if absent, a priority, PENDING
status and an `addedAt` timestamp, enqueues into the PriorityQueue, and
auto-starts the processing loop when idle; with `maxQueueSize = 2` and
processing paused, two adds succeed and a third rejects. -/
theorem add_queueFull_exactly (cfg : QueueConfig) (st : TaskQueueState)
    (t : Task) (genId : String) (now : Nat) :
    ((∃ e, TaskQueue.addOne cfg st t genId now = Except.error e) ↔
      cfg.maxQueueSize ≤ st.priorityQueue.size) ∧
    (∀ e, TaskQueue.addOne cfg st t genId now = Except.error e →
      e = AddError.queueFull) ∧
    (¬ cfg.maxQueueSize ≤ st.priorityQueue.size →
      (TaskQueue.addOne cfg st t genId now).isOk = true) ∧
    (∀ st' t', TaskQueue.addOne cfg st t genId now = Except.ok (st', t') →
      t'.id.isSome = true ∧
      t'.priority.isSome = true ∧
      t'.status = some TaskStatus.PENDING ∧
      t'.addedAt = some now ∧
      t'.retries = 0 ∧
      st'.priorityQueue = st.priorityQueue.enqueue t' ∧
      st'.priorityQueue.size = st.priorityQueue.size + 1) ∧
    (st.isProcessing = false → st.isPaused = false →
      (TaskQueue.autoStart st).isProcessing = true) ∧
    ((TaskQueue.addOne smallConfig initialTaskQueueState
        { id := some "a" } "g1" 0).isOk = true ∧
      (TaskQueue.addOne smallConfig smallState1
        { id := some "b" } "g2" 1).isOk = true ∧
      TaskQueue.addOne smallConfig smallState2 { id := some "c" } "g3" 2 =
        Except.error AddError.queueFull) := by
  refine ⟨⟨?_, ?_⟩, ?_, ?_, ?_, ?_, rfl, rfl, rfl⟩
  · rintro ⟨e, he⟩
    by_cases hfull : cfg.maxQueueSize ≤ st.priorityQueue.size
    · exact hfull
    · simp [TaskQueue.addOne, hfull] at he
  · intro hfull
    exact ⟨AddError.queueFull, by simp [TaskQueue.addOne, hfull]⟩
  · intro e he
    by_cases hfull : cfg.maxQueueSize ≤ st.priorityQueue.size
    · cases e
      rfl
    · simp [TaskQueue.addOne, hfull] at he
  · intro hfull
    simp only [TaskQueue.addOne, if_neg hfull]
    rfl
  · intro st' t' hok
    by_cases hfull : cfg.maxQueueSize ≤ st.priorityQueue.size
    · simp [TaskQueue.addOne, hfull] at hok
    · simp only [TaskQueue.addOne, if_neg hfull, Except.ok.injEq,
        Prod.mk.injEq] at hok
      obtain ⟨hst, ht⟩ := hok
      rw [ht] at hst
      refine ⟨?_, ?_, ?_, ?_, ?_, ?_, ?_⟩
      · rw [← ht]
        rcases hid : t.id with _ | tid <;>
          by_cases hf : jsFalsyPriority t.priority <;>
            simp [hid, hf]
      · rw [← ht]
        rcases hid : t.id with _ | tid <;>
          rcases hp : t.priority with _ | p <;>
            simp [hid, hp, jsFalsyPriority] <;>
              by_cases hz : p.toNat = 0 <;> simp [hz, hp]
      · rw [← ht]
      · rw [← ht]
      · rw [← ht]
      · rw [← hst]
      · rw [← hst, enqueue_size]
  · intro h1 h2
    simp [TaskQueue.autoStart, h1, h2]

/-- Witness for `add_queueFull_exactly` at the sample configuration. -/
theorem add_queueFull_exactly_witness :
    (TaskQueue.addOne sampleConfig initialTaskQueueState sampleTask
      "g0" 0).isOk = true ∧
    (TaskQueue.autoStart initialTaskQueueState).isProcessing = true :=
  ⟨(add_queueFull_exactly sampleConfig initialTaskQueueState sampleTask
      "g0" 0).2.2.1 (by decide),
    (add_queueFull_exactly sampleConfig initialTaskQueueState sampleTask
      "g0" 0).2.2.2.2.1 rfl rfl⟩

/-- C2: in every state reachable by the processing machinery, the number
of simultaneously active (PROCESSING) task ids is at most `concurrency`;
when the active count has reached `concurrency`, the running loop can
take its sleep-and-recheck step, which leaves the state unchanged, and no
step taken at capacity dequeues a task. -/
theorem processQueue_concurrency_ceiling (cfg : QueueConfig) :
    (∀ s : LoopState, LoopReachable cfg s →
      s.activeTasks.card ≤ cfg.concurrency) ∧
    (∀ s : LoopState, s.isProcessing = true → s.isPaused = false →
      cfg.concurrency ≤ s.activeTasks.card →
      LoopStep cfg s LoopAction.sleptAtCapacity s) ∧
    (∀ (s : LoopState) (a : LoopAction) (s' : LoopState) (t : Task),
      LoopStep cfg s a s' → cfg.concurrency ≤ s.activeTasks.card →
      a ≠ LoopAction.startedTask t) := by
  refine ⟨?_, ?_, ?_⟩
  · intro s hs
    induction hs with
    | init => simp [initialLoopState]
    | step hr hstep ih =>
      cases hstep with
      | sleptAtCapacity hrun hp hcap => exact ih
      | startedTask t q' hrun hp hcap hdq =>
        exact le_trans (Finset.card_insert_le _ _) hcap
      | sleptEmptyQueue hrun hp hcap hdq => exact ih
      | finishedTask id hid => exact le_trans (Finset.card_erase_le) ih
      | enqueuedTask t => exact ih
  · intro s hrun hp hcap
    exact LoopStep.sleptAtCapacity s hrun hp hcap
  · intro s a s' t hstep hcap
    cases hstep with
    | sleptAtCapacity hrun hp hcap' => simp
    | startedTask t' q' hrun hp hcap' hdq =>
      exact absurd hcap' (Nat.not_lt.mpr hcap)
    | sleptEmptyQueue hrun hp hcap' hdq => simp
    | finishedTask id hid => simp
    | enqueuedTask t' => simp

/-- Witness for `processQueue_concurrency_ceiling` at the initial
state. -/
theorem processQueue_concurrency_ceiling_witness :
    initialLoopState.activeTasks.card ≤ sampleConfig.concurrency :=
  (processQueue_concurrency_ceiling sampleConfig).1 initialLoopState
    LoopReachable.init

lemma mapSet_length (l : List (String × Task)) (k : String) (v : Task) :
    (mapSet l k v).length =
      if l.any (fun p => p.1 == k) then l.length else l.length + 1 := by
  unfold mapSet
  by_cases h : l.any (fun p => p.1 == k) <;> simp [h]

/-- C7: `DeadLetterQueue.add` at capacity evicts exactly the single
oldest entry (insertion order) and emits one overflow signal before
inserting, so with capacity ≥ 1 the size never exceeds the capacity —
the eviction happens before the insertion, so not even transiently;
below capacity nothing is evicted; and adding 10 distinct tasks to a
capacity-3 queue leaves exactly the last 3 in insertion order, with one
overflow per evicted earlier insertion. -/
theorem deadLetterQueue_capacity (q : DeadLetterQueue) (t : Task)
    (hcap : 1 ≤ q.maxSize) (hinv : q.entries.length ≤ q.maxSize) :
    (q.add t).dlq.entries.length ≤ q.maxSize ∧
    (q.entries.length < q.maxSize → (q.add t).overflowEvents = []) ∧
    (∀ k v rest, q.entries = (k, v) :: rest →
      q.maxSize ≤ q.entries.length →
      (q.add t).overflowEvents = [k] ∧
      (rest.any (fun p => p.1 == t.id.getD "") = false →
        (q.add t).dlq.entries = rest ++ [(t.id.getD "", t)])) ∧
    DeadLetterQueue.addAll dlq3 tenTasks =
      ({ entries := [("d7", { id := some "d7" }), ("d8", { id := some "d8" }),
          ("d9", { id := some "d9" })], maxSize := 3 },
        ["d0", "d1", "d2", "d3", "d4", "d5", "d6"]) := by
  refine ⟨?_, ?_, ?_, rfl⟩
  · by_cases hfull : q.maxSize ≤ q.entries.length
    · rcases hq : q.entries with _ | ⟨⟨k, v⟩, rest⟩
      · rw [hq] at hfull
        simp at hfull
        omega
      · rw [hq] at hfull hinv
        simp only [DeadLetterQueue.add, hq, if_pos hfull]
        rw [mapSet_length]
        simp at hinv ⊢
        split <;> omega
    · simp only [DeadLetterQueue.add, if_neg hfull]
      rw [mapSet_length]
      split <;> omega
  · intro hlt
    have hfull : ¬ q.maxSize ≤ q.entries.length := by omega
    simp [DeadLetterQueue.add, hfull]
  · intro k v rest hq hfull
    rw [hq] at hfull
    simp only [List.length_cons] at hfull
    constructor
    · simp [DeadLetterQueue.add, hq, hfull]
    · intro hnk
      simp [DeadLetterQueue.add, hq, hfull, mapSet, hnk]

/-- Witness for `deadLetterQueue_capacity` on the capacity-3 queue. -/
theorem deadLetterQueue_capacity_witness :
    (dlq3.add sampleTask).dlq.entries.length ≤ dlq3.maxSize ∧
    (dlq3.add sampleTask).overflowEvents = [] :=
  ⟨(deadLetterQueue_capacity dlq3 sampleTask (by decide) (by decide)).1,
    (deadLetterQueue_capacity dlq3 sampleTask (by decide) (by decide)).2.1
      (by decide)⟩

/-- C8: the dead-letter queue that `TaskQueue` builds for itself is
`new DeadLetterQueue(config.maxRetries)` — its capacity is the retry
limit (3 when `maxRetries = 3`), not an independently configured
dead-letter capacity; hence once it holds `maxRetries` entries, every
further dead-lettered task evicts the oldest entry (with its overflow
signal). -/
theorem taskQueue_dlq_capacity (cfg : QueueConfig) :
    (TaskQueue.mkDeadLetterQueue cfg).maxSize = cfg.maxRetries ∧
    (∀ (q : DeadLetterQueue) (t : Task) (k : String) (v : Task)
        (rest : List (String × Task)),
      q.maxSize = cfg.maxRetries → q.entries = (k, v) :: rest →
      cfg.maxRetries ≤ q.entries.length →
      (q.add t).overflowEvents = [k]) := by
  refine ⟨rfl, ?_⟩
  intro q t k v rest hmax hq hlen
  have hfull : q.maxSize ≤ rest.length + 1 := by
    rw [hmax]
    rw [hq] at hlen
    simpa using hlen
  simp [DeadLetterQueue.add, hq, hfull]

/-- Witness for `taskQueue_dlq_capacity`: with `maxRetries = 3`, the
queue's own DLQ has capacity 3, and an `add` to a full capacity-3 store
evicts the oldest key. -/
theorem taskQueue_dlq_capacity_witness :
    (TaskQueue.mkDeadLetterQueue sampleConfig).maxSize = 3 ∧
    (DeadLetterQueue.add
      { entries := [("x", sampleTask), ("y", sampleTask), ("z", sampleTask)],
        maxSize := 3 } sampleTask).overflowEvents = ["x"] :=
  ⟨(taskQueue_dlq_capacity sampleConfig).1,
    (taskQueue_dlq_capacity sampleConfig).2
      { entries := [("x", sampleTask), ("y", sampleTask), ("z", sampleTask)],
        maxSize := 3 }
      sampleTask "x" sampleTask [("y", sampleTask), ("z", sampleTask)]
      rfl rfl (by decide)⟩

/-- C9: for an exponential `BackoffStrategy` with jitter disabled, the
call with (1-based) attempt counter `n` returns
`initialDelay * multiplier^(n-1)` clamped to `maxDelay` (stated below
with `s.attempt = n - 1` the pre-call counter value); with
`initialDelay = 1000`, `multiplier = 2` and `maxDelay ≥ 4000` the first
three calls yield 1000, 2000, 4000; and the clamped sequence is
non-decreasing in the attempt number. -/
theorem backoff_exponential (cfg : BackoffConfig) (rand : ℚ)
    (htype : cfg.type = BackoffType.EXPONENTIAL) (hjit : cfg.jitter = false) :
    (∀ s : BackoffState,
      (BackoffStrategy.next cfg s rand).1 =
        min (cfg.initialDelay * cfg.multiplier ^ s.attempt) cfg.maxDelay ∧
      (BackoffStrategy.next cfg s rand).2.attempt = s.attempt + 1) ∧
    (0 ≤ cfg.initialDelay → 1 ≤ cfg.multiplier → ∀ i j : Nat, i ≤ j →
      min (cfg.initialDelay * cfg.multiplier ^ i) cfg.maxDelay ≤
      min (cfg.initialDelay * cfg.multiplier ^ j) cfg.maxDelay) ∧
    (cfg.initialDelay = 1000 → cfg.multiplier = 2 → 4000 ≤ cfg.maxDelay →
      BackoffStrategy.delays cfg rand 3 { attempt := 0 } =
        [1000, 2000, 4000]) := by
  refine ⟨?_, ?_, ?_⟩
  · intro s
    constructor
    · simp [BackoffStrategy.next, baseDelay, htype, hjit]
    · rfl
  · intro h0 h1 i j hij
    refine min_le_min ?_ (le_refl _)
    exact mul_le_mul_of_nonneg_left (pow_le_pow_right₀ h1 hij) h0
  · intro hinit hmul hmax
    have e1 : min (1000 : ℚ) cfg.maxDelay = 1000 := min_eq_left (by linarith)
    have e2 : min (2000 : ℚ) cfg.maxDelay = 2000 := min_eq_left (by linarith)
    have e3 : min (4000 : ℚ) cfg.maxDelay = 4000 := min_eq_left hmax
    simp only [BackoffStrategy.delays, BackoffStrategy.next, baseDelay,
      htype, hjit, hinit, hmul]
    norm_num [e1, e2, e3]

/-- Witness for `backoff_exponential` on the sample exponential
configuration. -/
theorem backoff_exponential_witness :
    BackoffStrategy.delays expConfig 0 3 { attempt := 0 } =
      [1000, 2000, 4000] :=
  (backoff_exponential expConfig 0 rfl rfl).2.2 rfl rfl (by norm_num [expConfig])

/-- C10: under the leaky-bucket strategy, `acquire` throws the
rate-limit-exceeded error immediately — without waiting — exactly when
the admission queue already holds `capacity` entries (given the queue
never grew past capacity), and otherwise appends the caller to the queue
to await the leak, so the queue length never exceeds `capacity`; the
fixed-window, sliding-window and token-bucket strategies never reject —
their `acquire` either proceeds or sleeps. -/
theorem rateLimiter_leakyBucket_reject (b : LeakyBucketState) (now : ℚ)
    (hinv : b.queue.length ≤ b.capacity) :
    ((acquireLeakyBucket b now).1 = AcquireOutcome.reject ↔
      b.queue.length = b.capacity) ∧
    ((acquireLeakyBucket b now).1 = AcquireOutcome.reject →
      (acquireLeakyBucket b now).2 = b) ∧
    (b.queue.length < b.capacity →
      (acquireLeakyBucket b now).1 = AcquireOutcome.queued ∧
      (acquireLeakyBucket b now).2.queue = b.queue ++ [now]) ∧
    (acquireLeakyBucket b now).2.queue.length ≤ b.capacity ∧
    (∀ (limit : Nat) (windowSize : ℚ) (w : Option RateLimitWindow) (ts : ℚ),
      (acquireFixedWindow limit windowSize w ts).1 ≠ AcquireOutcome.reject ∧
      (acquireSlidingWindow limit windowSize w ts).1 ≠ AcquireOutcome.reject) ∧
    (∀ (tb : TokenBucketState) (ts : ℚ),
      (acquireTokenBucket tb ts).1 ≠ AcquireOutcome.reject) := by
  refine ⟨?_, ?_, ?_, ?_, ?_, ?_⟩
  · by_cases hfull : b.capacity ≤ b.queue.length <;>
      simp [acquireLeakyBucket, hfull] <;> omega
  · intro hrej
    by_cases hfull : b.capacity ≤ b.queue.length <;>
      simp [acquireLeakyBucket, hfull] at hrej ⊢
  · intro hlt
    have hfull : ¬ b.capacity ≤ b.queue.length := by omega
    simp [acquireLeakyBucket, hfull]
  · by_cases hfull : b.capacity ≤ b.queue.length <;>
      simp [acquireLeakyBucket, hfull] <;> omega
  · intro limit windowSize w ts
    constructor
    · unfold acquireFixedWindow
      rcases w with _ | w <;> dsimp only <;> split_ifs <;> simp
    · unfold acquireSlidingWindow
      dsimp only
      split_ifs <;> simp
  · intro tb ts
    unfold acquireTokenBucket
    dsimp only
    split_ifs <;> simp

/-- Witness for `rateLimiter_leakyBucket_reject` on an empty capacity-2
bucket. -/
theorem rateLimiter_leakyBucket_reject_witness :
    (acquireLeakyBucket leaky2 7).1 = AcquireOutcome.queued ∧
    (acquireLeakyBucket leaky2 7).2.queue = leaky2.queue ++ [7] ∧
    (acquireLeakyBucket leaky2 7).2.queue.length ≤ leaky2.capacity :=
  ⟨((rateLimiter_leakyBucket_reject leaky2 7 (by decide)).2.2.1 (by decide)).1,
    ((rateLimiter_leakyBucket_reject leaky2 7 (by decide)).2.2.1 (by decide)).2,
    (rateLimiter_leakyBucket_reject leaky2 7 (by decide)).2.2.2.1⟩

lemma applyCalls_succ_back (cfg : CircuitBreakerConfig) (f : Bool) (n : Nat)
    (cb : CircuitBreakerState) :
    CircuitBreaker.applyCalls cfg f (n + 1) cb =
      (CircuitBreaker.execute cfg (CircuitBreaker.applyCalls cfg f n cb) f).2 := by
  induction n generalizing cb with
  | zero => rfl
  | succ n ih =>
    show CircuitBreaker.applyCalls cfg f (n + 1)
        (CircuitBreaker.execute cfg cb f).2 = _
    rw [ih]
    rfl

lemma execute_failure_closed (cfg : CircuitBreakerConfig)
    (cb : CircuitBreakerState) (hst : cb.state = CircuitState.CLOSED)
    (hlt : cb.consecutiveFailures + 1 < cfg.failureThreshold) :
    (CircuitBreaker.execute cfg cb true).2.state = CircuitState.CLOSED ∧
    (CircuitBreaker.execute cfg cb true).2.consecutiveFailures =
      cb.consecutiveFailures + 1 := by
  have hthr : ¬ cfg.failureThreshold ≤ cb.consecutiveFailures + 1 := by omega
  constructor <;>
    simp [CircuitBreaker.execute, CircuitBreaker.onFailure, hst, hthr]

lemma closed_failures_applyCalls (cfg : CircuitBreakerConfig) (n : Nat) :
    ∀ cb : CircuitBreakerState, cb.state = CircuitState.CLOSED →
    cb.consecutiveFailures + n < cfg.failureThreshold →
    (CircuitBreaker.applyCalls cfg true n cb).state = CircuitState.CLOSED ∧
    (CircuitBreaker.applyCalls cfg true n cb).consecutiveFailures =
      cb.consecutiveFailures + n := by
  induction n with
  | zero =>
    intro cb hst _
    exact ⟨hst, rfl⟩
  | succ n ih =>
    intro cb hst hn
    have hone := execute_failure_closed cfg cb hst (by omega)
    have hrec := ih (CircuitBreaker.execute cfg cb true).2 hone.1
      (by rw [hone.2]; omega)
    constructor
    · exact hrec.1
    · have : CircuitBreaker.applyCalls cfg true (n + 1) cb =
          CircuitBreaker.applyCalls cfg true n
            (CircuitBreaker.execute cfg cb true).2 := rfl
      rw [this, hrec.2, hone.2]
      omega

lemma execute_failure_closed_open (cfg : CircuitBreakerConfig)
    (cb : CircuitBreakerState) (hst : cb.state = CircuitState.CLOSED)
    (hthr : cfg.failureThreshold ≤ cb.consecutiveFailures + 1) :
    (CircuitBreaker.execute cfg cb true).2.state = CircuitState.OPEN := by
  simp [CircuitBreaker.execute, CircuitBreaker.onFailure,
    CircuitBreaker.openCircuit, hst, hthr]

lemma execute_success_halfOpen (cfg : CircuitBreakerConfig)
    (cb : CircuitBreakerState) (hst : cb.state = CircuitState.HALF_OPEN)
    (hat : cb.halfOpenAttempts < cfg.halfOpenMaxAttempts)
    (hsc : cb.consecutiveSuccesses + 1 < cfg.successThreshold) :
    (CircuitBreaker.execute cfg cb false).2.state = CircuitState.HALF_OPEN ∧
    (CircuitBreaker.execute cfg cb false).2.halfOpenAttempts =
      cb.halfOpenAttempts + 1 ∧
    (CircuitBreaker.execute cfg cb false).2.consecutiveSuccesses =
      cb.consecutiveSuccesses + 1 := by
  have h1 : ¬ cfg.halfOpenMaxAttempts ≤ cb.halfOpenAttempts := by omega
  have h2 : ¬ cfg.successThreshold ≤ cb.consecutiveSuccesses + 1 := by omega
  refine ⟨?_, ?_, ?_⟩ <;>
    simp [CircuitBreaker.execute, CircuitBreaker.onSuccess, hst, h1, h2]

lemma halfOpen_successes_applyCalls (cfg : CircuitBreakerConfig) (n : Nat) :
    ∀ cb : CircuitBreakerState, cb.state = CircuitState.HALF_OPEN →
    cb.halfOpenAttempts + n ≤ cfg.halfOpenMaxAttempts →
    cb.consecutiveSuccesses + n < cfg.successThreshold →
    (CircuitBreaker.applyCalls cfg false n cb).state = CircuitState.HALF_OPEN ∧
    (CircuitBreaker.applyCalls cfg false n cb).halfOpenAttempts =
      cb.halfOpenAttempts + n ∧
    (CircuitBreaker.applyCalls cfg false n cb).consecutiveSuccesses =
      cb.consecutiveSuccesses + n := by
  induction n with
  | zero =>
    intro cb hst _ _
    exact ⟨hst, rfl, rfl⟩
  | succ n ih =>
    intro cb hst hat hsc
    have hone := execute_success_halfOpen cfg cb hst (by omega) (by omega)
    have hrec := ih (CircuitBreaker.execute cfg cb false).2 hone.1
      (by rw [hone.2.1]; omega) (by rw [hone.2.2]; omega)
    have heq : CircuitBreaker.applyCalls cfg false (n + 1) cb =
        CircuitBreaker.applyCalls cfg false n
          (CircuitBreaker.execute cfg cb false).2 := rfl
    refine ⟨by rw [heq]; exact hrec.1, ?_, ?_⟩
    · rw [heq, hrec.2.1, hone.2.1]
      omega
    · rw [heq, hrec.2.2, hone.2.2]
      omega

lemma execute_success_halfOpen_close (cfg : CircuitBreakerConfig)
    (cb : CircuitBreakerState) (hst : cb.state = CircuitState.HALF_OPEN)
    (hat : cb.halfOpenAttempts < cfg.halfOpenMaxAttempts)
    (hsc : cfg.successThreshold ≤ cb.consecutiveSuccesses + 1) :
    (CircuitBreaker.execute cfg cb false).2.state = CircuitState.CLOSED ∧
    (CircuitBreaker.execute cfg cb false).2.consecutiveFailures = 0 := by
  have h1 : ¬ cfg.halfOpenMaxAttempts ≤ cb.halfOpenAttempts := by omega
  constructor <;>
    simp [CircuitBreaker.execute, CircuitBreaker.onSuccess,
      CircuitBreaker.closeCircuit, hst, h1, hsc]

/-- C4: a `CircuitBreaker` is created CLOSED; in CLOSED (with a clean
failure counter), `failureThreshold` consecutive failures move it to
OPEN; in OPEN, `execute` rejects with `CircuitBreakerOpenError` without
invoking the guarded function (the returned state — `totalRequests`
included — is untouched); the `timeout` timer moves it to HALF_OPEN; in
HALF_OPEN a call is admitted iff fewer than `halfOpenMaxAttempts` probes
have run (a rejected probe also leaves the state untouched), any single
failure returns it to OPEN, and `successThreshold` consecutive successes
(reachable when `successThreshold ≤ halfOpenMaxAttempts`) return it to
CLOSED with the consecutive-failure counter reset. -/
theorem circuitBreaker_state_machine (cfg : CircuitBreakerConfig)
    (hfpos : 1 ≤ cfg.failureThreshold) (hspos : 1 ≤ cfg.successThreshold)
    (hsle : cfg.successThreshold ≤ cfg.halfOpenMaxAttempts) :
    CircuitBreakerState.initial.state = CircuitState.CLOSED ∧
    (∀ cb : CircuitBreakerState, cb.state = CircuitState.CLOSED →
      cb.consecutiveFailures = 0 →
      (CircuitBreaker.applyCalls cfg true cfg.failureThreshold cb).state =
        CircuitState.OPEN) ∧
    (∀ (cb : CircuitBreakerState) (f : Bool), cb.state = CircuitState.OPEN →
      CircuitBreaker.execute cfg cb f = (ExecuteOutcome.rejectedOpen, cb)) ∧
    (∀ cb : CircuitBreakerState,
      (CircuitBreaker.timerFire cb).state = CircuitState.HALF_OPEN) ∧
    (∀ (cb : CircuitBreakerState) (f : Bool),
      cb.state = CircuitState.HALF_OPEN →
      ((CircuitBreaker.execute cfg cb f).1 =
          ExecuteOutcome.rejectedHalfOpenLimit ↔
        cfg.halfOpenMaxAttempts ≤ cb.halfOpenAttempts) ∧
      ((CircuitBreaker.execute cfg cb f).1 =
          ExecuteOutcome.rejectedHalfOpenLimit →
        (CircuitBreaker.execute cfg cb f).2 = cb)) ∧
    (∀ cb : CircuitBreakerState, cb.state = CircuitState.HALF_OPEN →
      cb.halfOpenAttempts < cfg.halfOpenMaxAttempts →
      (CircuitBreaker.execute cfg cb true).1 = ExecuteOutcome.failed ∧
      (CircuitBreaker.execute cfg cb true).2.state = CircuitState.OPEN) ∧
    (∀ cb : CircuitBreakerState, cb.state = CircuitState.HALF_OPEN →
      cb.halfOpenAttempts = 0 → cb.consecutiveSuccesses = 0 →
      (CircuitBreaker.applyCalls cfg false cfg.successThreshold cb).state =
        CircuitState.CLOSED ∧
      (CircuitBreaker.applyCalls cfg false
        cfg.successThreshold cb).consecutiveFailures = 0) := by
  refine ⟨rfl, ?_, ?_, ?_, ?_, ?_, ?_⟩
  · intro cb hst h0
    obtain ⟨m, hm⟩ : ∃ m, cfg.failureThreshold = m + 1 :=
      ⟨cfg.failureThreshold - 1, by omega⟩
    rw [hm, applyCalls_succ_back]
    have hmid := closed_failures_applyCalls cfg m cb hst (by omega)
    exact execute_failure_closed_open cfg _ hmid.1 (by rw [hmid.2]; omega)
  · intro cb f hst
    simp [CircuitBreaker.execute, hst]
  · intro cb
    rfl
  · intro cb f hst
    constructor
    · by_cases hat : cfg.halfOpenMaxAttempts ≤ cb.halfOpenAttempts
      · simp [CircuitBreaker.execute, hst, hat]
      · cases f <;> simp [CircuitBreaker.execute, hst, hat]
    · intro hrej
      by_cases hat : cfg.halfOpenMaxAttempts ≤ cb.halfOpenAttempts
      · simp [CircuitBreaker.execute, hst, hat]
      · cases f <;> simp [CircuitBreaker.execute, hst, hat] at hrej
  · intro cb hst hat
    have h1 : ¬ cfg.halfOpenMaxAttempts ≤ cb.halfOpenAttempts := by omega
    constructor
    · simp [CircuitBreaker.execute, hst, h1]
    · simp [CircuitBreaker.execute, CircuitBreaker.onFailure,
        CircuitBreaker.openCircuit, hst, h1]
  · intro cb hst ha0 hs0
    obtain ⟨m, hm⟩ : ∃ m, cfg.successThreshold = m + 1 :=
      ⟨cfg.successThreshold - 1, by omega⟩
    rw [hm, applyCalls_succ_back]
    have hmid := halfOpen_successes_applyCalls cfg m cb hst
      (by omega) (by omega)
    exact execute_success_halfOpen_close cfg _ hmid.1
      (by rw [hmid.2.1]; omega) (by rw [hmid.2.2]; omega)

/-- Witness for `circuitBreaker_state_machine` with the spec's example
thresholds (5 failures to open, 2 successes to close). -/
theorem circuitBreaker_state_machine_witness :
    CircuitBreakerState.initial.state = CircuitState.CLOSED ∧
    (CircuitBreaker.applyCalls cbConfig true cbConfig.failureThreshold
      CircuitBreakerState.initial).state = CircuitState.OPEN :=
  ⟨(circuitBreaker_state_machine cbConfig (by decide) (by decide)
      (by decide)).1,
    (circuitBreaker_state_machine cbConfig (by decide) (by decide)
      (by decide)).2.1 CircuitBreakerState.initial rfl rfl⟩

end UltraScraper
